import Mathlib

/-!
Shallow embedding of the change-detection and scan-orchestration engine of
`app/masscan_scaner.py` (classes `MasscanScanner`, `ScanHistory`,
`PortScannerOrchestrator` and the notification dispatch of `TelegramNotifier`).

Modelling conventions:
* Timestamps (`datetime.now()`) are passed in as explicit `now : String`
  arguments.
* Every Python `dict` is an association list in insertion order (`PyDict`);
  `dictInsert` overwrites an existing key in place and appends a new key at
  the end, exactly like CPython dict assignment, and `dictUpdate` is
  `dict.update`.
* The masscan subprocess is modelled by an explicit outcome value
  (`SubprocOutcome`), the nmap banner probe (`BannerGrabber
  .identify_open_ports`) by a function parameter `identify`, and the Telegram
  sends by emitted `Notification` events.
* `json.loads` is modelled by `json_loads`, a parser for the subset of JSON
  that masscan's line output uses (strings without escape sequences, integer
  numbers, `true`/`false`/`null`, arrays, objects); records whose `ip` value
  is not a string or whose port entries carry non-string `proto`/`status` or
  a non-numeric `port` are routed to the error path, since every claim only
  concerns records with string addresses and numeric ports.
* Logging is tracked only where a claim mentions it: `parseLines` counts the
  `logging.debug` skip messages of the JSON-decode handler, and
  `MasscanScanner.scan` records in `failureLogged` whether a failure branch
  (each of which logs) was taken.
-/

/-- Python `dict` with string keys: an association list in insertion order. -/
abbrev PyDict (α : Type) : Type := List (String × α)

/-- `d[k]` / `d.get(k)`: the value stored for key `k` (first, and for dicts
maintained by `dictInsert` only, binding of `k`). -/
def dictGet? {α : Type} : PyDict α → String → Option α
  | [], _ => none
  | (k, v) :: rest, key => if k = key then some v else dictGet? rest key

/-- `k in d`. -/
def dictHasKey {α : Type} (d : PyDict α) (k : String) : Bool :=
  d.any (fun p => p.1 = k)

/-- `d[k] = v`: overwrite in place if the key exists, append otherwise
(CPython dict assignment keeps the position of an existing key). -/
def dictInsert {α : Type} (d : PyDict α) (k : String) (v : α) : PyDict α :=
  if dictHasKey d k then d.map (fun p => if p.1 = k then (k, v) else p)
  else d ++ [(k, v)]

/-- `d.update(new)`: keys of `new` overwrite existing entries in place, fresh
keys are appended in order. -/
def dictUpdate {α : Type} (d new : PyDict α) : PyDict α :=
  new.foldl (fun acc p => dictInsert acc p.1 p.2) d

/-- `list(d.keys())`. -/
def dictKeys {α : Type} (d : PyDict α) : List String :=
  d.map Prod.fst

/-- One record appended by `MasscanScanner.scan` for a discovered open port
(`{'ip': ..., 'port': ..., 'protocol': ..., 'status': ...}`,
lines 431-436 of the source). -/
structure ScanRecord where
  ip : String
  port : Int
  protocol : String
  status : String
deriving DecidableEq

/-- JSON values, for the masscan output lines fed to `json.loads`. -/
inductive Json where
  | null : Json
  | bool (b : Bool) : Json
  | num (n : Int) : Json
  | str (s : String) : Json
  | arr (items : List Json) : Json
  | obj (fields : List (String × Json)) : Json

/-- The `{` character, kept out of literals. -/
def lbraceChar : Char := Char.ofNat 123

/-- The `}` character, kept out of literals. -/
def rbraceChar : Char := Char.ofNat 125

/-- JSON insignificant whitespace (RFC 8259: space, tab, LF, CR). -/
def skipWs : List Char → List Char
  | [] => []
  | c :: rest =>
    if c = ' ' ∨ c = '\t' ∨ c = '\n' ∨ c = '\r' then skipWs rest else c :: rest

/-- Body of a JSON string after the opening quote; escape sequences are not
part of the modelled subset (a `\` makes the parse fail). -/
def parseStringBody : List Char → Option (String × List Char)
  | [] => none
  | c :: rest =>
    if c = '"' then some ("", rest)
    else if c = '\\' then none
    else
      match parseStringBody rest with
      | some (s, r) => some (String.mk (c :: s.data), r)
      | none => none

/-- Digits to a natural number, most significant first. -/
def digitsToNat : List Char → Nat → Nat
  | [], acc => acc
  | c :: rest, acc => digitsToNat rest (acc * 10 + (c.toNat - 48))

/-- A JSON integer (the masscan subset has no fractions or exponents). -/
def parseNumber (cs : List Char) : Option (Int × List Char) :=
  match cs with
  | '-' :: rest =>
    let ds := rest.takeWhile Char.isDigit
    if ds = [] then none
    else some (-(Int.ofNat (digitsToNat ds 0)), rest.dropWhile Char.isDigit)
  | _ =>
    let ds := cs.takeWhile Char.isDigit
    if ds = [] then none
    else some (Int.ofNat (digitsToNat ds 0), cs.dropWhile Char.isDigit)

mutual

/-- One JSON value; the fuel bounds the depth of the recursion. -/
def parseVal : Nat → List Char → Option (Json × List Char)
  | 0, _ => none
  | fuel + 1, cs =>
    match skipWs cs with
    | [] => none
    | c :: rest =>
      if c = '"' then
        match parseStringBody rest with
        | some (s, r) => some (.str s, r)
        | none => none
      else if c = '[' then
        match skipWs rest with
        | ']' :: r2 => some (.arr [], r2)
        | r2 => match parseArrRest fuel r2 with
          | some (items, r3) => some (.arr items, r3)
          | none => none
      else if c = lbraceChar then
        match skipWs rest with
        | c2 :: r2 =>
          if c2 = rbraceChar then some (.obj [], r2)
          else match parseObjRest fuel [] (c2 :: r2) with
            | some (fields, r3) => some (.obj fields, r3)
            | none => none
        | [] => none
      else if c = 't' then
        match rest with
        | 'r' :: 'u' :: 'e' :: r => some (.bool true, r)
        | _ => none
      else if c = 'f' then
        match rest with
        | 'a' :: 'l' :: 's' :: 'e' :: r => some (.bool false, r)
        | _ => none
      else if c = 'n' then
        match rest with
        | 'u' :: 'l' :: 'l' :: r => some (.null, r)
        | _ => none
      else
        match parseNumber (c :: rest) with
        | some (n, r) => some (.num n, r)
        | none => none

/-- Elements of a non-empty JSON array, after the opening bracket. -/
def parseArrRest : Nat → List Char → Option (List Json × List Char)
  | 0, _ => none
  | fuel + 1, cs =>
    match parseVal fuel cs with
    | none => none
    | some (v, r) =>
      match skipWs r with
      | ',' :: r2 =>
        match parseArrRest fuel r2 with
        | some (vs, r3) => some (v :: vs, r3)
        | none => none
      | ']' :: r2 => some ([v], r2)
      | _ => none

/-- Members of a non-empty JSON object, after the opening brace; duplicate
keys keep the last value, as in Python's `json.loads`. -/
def parseObjRest : Nat → PyDict Json → List Char → Option (PyDict Json × List Char)
  | 0, _, _ => none
  | fuel + 1, acc, cs =>
    match skipWs cs with
    | [] => none
    | c :: rest =>
      if c = '"' then
        match parseStringBody rest with
        | none => none
        | some (key, r) =>
          match skipWs r with
          | ':' :: r2 =>
            match parseVal fuel r2 with
            | none => none
            | some (v, r3) =>
              match skipWs r3 with
              | ',' :: r4 => parseObjRest fuel (dictInsert acc key v) r4
              | c2 :: r4 =>
                if c2 = rbraceChar then some (dictInsert acc key v, r4) else none
              | [] => none
          | _ => none
      else none

end

/-- `json.loads` on the masscan output subset: one value, surrounded only by
whitespace. -/
def json_loads (s : String) : Option Json :=
  match parseVal (2 * s.length + 2) s.data with
  | some (j, rest) => if skipWs rest = [] then some j else none
  | none => none

/-- Whether `pre` is a prefix of `cs`. -/
def charsHavePrefix : List Char → List Char → Bool
  | [], _ => true
  | _ :: _, [] => false
  | a :: as, b :: bs => a = b && charsHavePrefix as bs

/-- Whether `sub` occurs inside `cs` (Python `sub in s` on strings). -/
def charsContain (sub : List Char) : List Char → Bool
  | [] => sub.isEmpty
  | c :: t => charsHavePrefix sub (c :: t) || charsContain sub t

/-- Python `sub in s` for strings. -/
def strContainsSub (s sub : String) : Bool :=
  charsContain sub.data s.data

/-- Python `x in l` for a JSON array, compared against a string `s`. -/
def jsonListHasStr (items : List Json) (s : String) : Bool :=
  items.any (fun j => match j with | .str t => t = s | _ => false)

/-- `port_info.get(key, default)` where the program expects a string value;
a non-string value is outside the modelled subset and fails the extraction. -/
def getStrField (fields : PyDict Json) (key dflt : String) : Option String :=
  match dictGet? fields key with
  | none => some dflt
  | some (.str s) => some s
  | some _ => none

/-- One element of `data['ports']` (lines 430-436): reads `port_info['port']`
(a missing key raises, hence `none`), `port_info.get('proto', 'tcp')` and
`port_info.get('status', 'open')`. A non-object element raises a `TypeError`
when indexed, hence `none`. -/
def extractPortEntry (ip : String) : Json → Option ScanRecord
  | .obj fields =>
    match dictGet? fields "port" with
    | some (.num n) =>
      match getStrField fields "proto" "tcp", getStrField fields "status" "open" with
      | some proto, some status => some { ip := ip, port := n, protocol := proto, status := status }
      | _, _ => none
    | _ => none
  | _ => none

/-- The loop `for port_info in data['ports']`, appending one record per
entry; `none` models an exception escaping the loop body. -/
def extractPortList (ip : String) : List Json → Option (List ScanRecord)
  | [] => some []
  | item :: rest =>
    match extractPortEntry ip item, extractPortList ip rest with
    | some r, some rs => some (r :: rs)
    | _, _ => none

/-- Lines 429-436: `if 'ip' in data and 'ports' in data: for port_info in
data['ports']: results.append(...)`. `some rs` is a normal pass appending
`rs`; `none` is an exception raised while handling the decoded value (it is
not caught by the per-line `json.JSONDecodeError` handler and escapes to the
whole-scan `except Exception`). A decoded value that is not an object: for a
list or string the `in` checks are membership/substring tests and indexing
raises only when both succeed; for a number/bool/null the `in` test itself
raises `TypeError`. -/
def extractRecords : Json → Option (List ScanRecord)
  | .obj fields =>
    match dictGet? fields "ip", dictGet? fields "ports" with
    | some (.str ip), some (.arr items) => extractPortList ip items
    | some _, some _ => none
    | _, _ => some []
  | .arr items =>
    if jsonListHasStr items "ip" && jsonListHasStr items "ports" then none else some []
  | .str s =>
    if strContainsSub s "ip" && strContainsSub s "ports" then none else some []
  | _ => none

/-- ASCII whitespace stripped by Python `str.strip()`. -/
def isPyWs (c : Char) : Bool :=
  c = ' ' || c = '\t' || c = '\n' || c = '\r' || c = '\x0b' || c = '\x0c'

/-- `line.strip()` on the underlying characters. -/
def stripChars (cs : List Char) : List Char :=
  (((cs.dropWhile isPyWs).reverse).dropWhile isPyWs).reverse

/-- `line.strip()`. -/
def pyStrip (s : String) : String :=
  String.mk (stripChars s.data)

/-- Outcome of handling one output line in the parsing loop of
`MasscanScanner.scan` (lines 418-439). -/
inductive LineStep where
  /-- `continue` taken by a pre-decode filter, with no log call. -/
  | skip : LineStep
  /-- `continue` from the `json.JSONDecodeError` handler, which logs. -/
  | skipLogged : LineStep
  /-- Records appended for this line. -/
  | recs (rs : List ScanRecord) : LineStep
  /-- An exception escaped the loop body. -/
  | err : LineStep
deriving DecidableEq

/-- The body of the per-line loop: strip, drop empty and lone-delimiter lines
(the `{` and `}` delimiters are written `\x7b`/`\x7d`), drop a trailing
comma, drop lines shorter than 10 characters, then decode. -/
def processLine (line : String) : LineStep :=
  let l := pyStrip line
  if l = "" ∨ l = "," ∨ l = "[" ∨ l = "]" ∨ l = "\x7b" ∨ l = "\x7d" then .skip
  else
    let l2 := if l.data.getLast? = some ',' then String.mk l.data.dropLast else l
    if l2.data.length < 10 then .skip
    else
      match json_loads l2 with
      | none => .skipLogged
      | some d =>
        match extractRecords d with
        | none => .err
        | some rs => .recs rs

/-- Folding one line into the accumulated `(records, logged skips)`; `none`
models an exception having escaped the loop. -/
def parseLinesStep (acc : Option (List ScanRecord × Nat)) (line : String) :
    Option (List ScanRecord × Nat) :=
  match acc with
  | none => none
  | some (rs, skips) =>
    match processLine line with
    | .skip => some (rs, skips)
    | .skipLogged => some (rs, skips + 1)
    | .recs r => some (rs ++ r, skips)
    | .err => none

/-- The whole parsing loop over the output file's lines, returning the
collected records and the number of logged (JSON-decode-failure) skips, or
`none` when an exception escaped the loop. -/
def parseLines (lines : List String) : Option (List ScanRecord × Nat) :=
  lines.foldl parseLinesStep (some ([], 0))

/-- What `MasscanScanner.scan` returns, together with whether a failure
branch (each of which logs an error/warning) was taken. -/
structure ScanRunResult where
  records : List ScanRecord
  failureLogged : Bool
deriving DecidableEq

/-- The environment-determined outcome of the `subprocess.run` call and the
output file (lines 399-414): the process completed with an exit code, the
output file either exists with the given lines or is missing; or
`subprocess.TimeoutExpired` was raised; or some other exception was raised. -/
inductive SubprocOutcome where
  | completed (returncode : Int) (outputFileExists : Bool) (outputLines : List String) : SubprocOutcome
  | timeoutExpired : SubprocOutcome
  | otherFailure : SubprocOutcome

/-- `MasscanScanner.scan` (lines 397-454) as a function of the subprocess
outcome: exit codes other than 0 and 1 fail, a missing output file fails, an
exception escaping the parsing loop is caught by `except Exception`, and the
`TimeoutExpired` and generic handlers return `[]`; every failure branch logs. -/
def MasscanScanner.scan : SubprocOutcome → ScanRunResult
  | .completed returncode outputFileExists outputLines =>
    if ¬(returncode = 0 ∨ returncode = 1) then { records := [], failureLogged := true }
    else if ¬outputFileExists then { records := [], failureLogged := true }
    else
      match parseLines outputLines with
      | none => { records := [], failureLogged := true }
      | some (rs, _) => { records := rs, failureLogged := false }
  | .timeoutExpired => { records := [], failureLogged := true }
  | .otherFailure => { records := [], failureLogged := true }

/-- The keyword arguments of a `subprocess.run` invocation, as written in the
source. `timeout = none` means no `timeout=` argument was passed. -/
structure SubprocessRunCall where
  cmd : List String
  check : Bool
  captureOutput : Bool
  text : Bool
  timeout : Option Nat
deriving DecidableEq

/-- The masscan command list built in `MasscanScanner.scan` (lines 385-395;
the `sudo` entry is commented out in the source). -/
def masscan_cmd (target ports : String) (rate : Nat) (output_file : String) : List String :=
  ["masscan", target, "-p", ports, "--rate", toString rate, "--open-only",
   "--wait", "0", "--output-format", "json", "--output-filename", output_file]

/-- The `subprocess.run` call of `MasscanScanner.scan` (lines 399-403):
`subprocess.run(cmd, capture_output=True, text=True)` — no `timeout=`. -/
def masscan_scan_run_call (target ports : String) (rate : Nat) (output_file : String) :
    SubprocessRunCall :=
  { cmd := masscan_cmd target ports rate output_file,
    check := false, captureOutput := true, text := true, timeout := none }

/-- The `subprocess.run` call of `MasscanScanner._check_masscan_installed`
(lines 362-367): `subprocess.run(['sudo','which','masscan'], check=True,
capture_output=True, timeout=self.timeout)`. -/
def check_masscan_run_call (timeout : Nat) : SubprocessRunCall :=
  { cmd := ["sudo", "which", "masscan"],
    check := true, captureOutput := true, text := false, timeout := some timeout }

/-- One value of `ScanHistory.data` (the per-address history document). The
Python entry created on first observation has no `last_scanned` key until the
same `update_ports` call sets it; the placeholder `""` used here is
overwritten before the entry is ever read. -/
structure HostEntry where
  first_scanned : String
  ports : List Int
  services : PyDict String
  last_scanned : String
deriving DecidableEq

/-- `ScanHistory`: the persisted mapping from address to `HostEntry`.
Persistence (`_save_history`) is a side effect with no influence on the
in-memory state and is not modelled. -/
structure ScanHistory where
  data : PyDict HostEntry
deriving DecidableEq

/-- `get_previous_ports` (lines 486-488):
`set(self.data.get(ip, {}).get("ports", []))`. -/
def ScanHistory.get_previous_ports (h : ScanHistory) (ip : String) : Finset Int :=
  (((dictGet? h.data ip).map HostEntry.ports).getD []).toFinset

/-- `update_ports` (lines 490-502): create a fresh entry if the address is
new, then fully replace `ports` by `sorted(list(set(ports)))`, merge
`services` via `dict.update`, and set `last_scanned`. -/
def ScanHistory.update_ports (h : ScanHistory) (ip : String) (ports : List Int)
    (services : PyDict String) (now : String) : ScanHistory :=
  let data1 :=
    if dictHasKey h.data ip then h.data
    else dictInsert h.data ip
      { first_scanned := now, ports := [], services := [], last_scanned := "" }
  let e :=
    match dictGet? data1 ip with
    | some e => e
    | none => { first_scanned := now, ports := [], services := [], last_scanned := "" }
  { data := dictInsert data1 ip
      { e with ports := Finset.sort (· ≤ ·) ports.toFinset,
               services := dictUpdate e.services services,
               last_scanned := now } }

/-- `find_new_ports` (lines 504-509):
`sorted(list(set(current_ports) - self.get_previous_ports(ip)))`. -/
def ScanHistory.find_new_ports (h : ScanHistory) (ip : String)
    (current_ports : List Int) : List Int :=
  Finset.sort (· ≤ ·) (current_ports.toFinset \ h.get_previous_ports ip)

/-- The body of the `find_changed_services` loop (lines 519-525): look up the
previously stored banner with default `""` (the keys of `current_services`
are already strings, so `str(port)` is the identity here) and flag the port
only when the old banner is truthy (non-empty) and differs. -/
def changed_step (prev_services : PyDict String) (changed : PyDict (String × String))
    (pr : String × String) : PyDict (String × String) :=
  if (dictGet? prev_services pr.1).getD "" ≠ "" ∧ (dictGet? prev_services pr.1).getD "" ≠ pr.2
  then dictInsert changed pr.1 ((dictGet? prev_services pr.1).getD "", pr.2)
  else changed

/-- `find_changed_services` (lines 511-527): an unknown address yields `{}`;
otherwise the loop over `current_services.items()` builds the `changed`
dict. -/
def ScanHistory.find_changed_services (h : ScanHistory) (ip : String)
    (current_services : PyDict String) : PyDict (String × String) :=
  match dictGet? h.data ip with
  | none => []
  | some e => current_services.foldl (changed_step e.services) []

/-- The services previously stored for an address
(`self.data[ip]["services"]`, empty for an unknown address). -/
def previousServices (h : ScanHistory) (ip : String) : PyDict String :=
  match dictGet? h.data ip with
  | some e => e.services
  | none => []

/-- A Telegram message send, by kind and payload. `noOpenPortsFound` and
`scanSummary` are the two branches of `notify_scan_results_single`
(lines 211-232). -/
inductive Notification where
  | scanStart (targetName target ports : String) : Notification
  | newPorts (ip : String) (new_ports : List Int) (services : PyDict String) : Notification
  | changedServices (ip : String) (changed : PyDict (String × String)) : Notification
  | noOpenPortsFound (targetName target : String) : Notification
  | scanSummary (targetName target : String) (ports_info : PyDict String) : Notification
deriving DecidableEq

/-- `notify_new_ports` (lines 178-192): returns without sending when
`new_ports` is empty. -/
def notify_new_ports (ip : String) (new_ports : List Int) (services : PyDict String) :
    List Notification :=
  if new_ports = [] then [] else [.newPorts ip new_ports services]

/-- `notify_changed_services` (lines 194-209): returns without sending when
`changed_ports` is empty. -/
def notify_changed_services (ip : String) (changed : PyDict (String × String)) :
    List Notification :=
  if changed = [] then [] else [.changedServices ip changed]

/-- `notify_scan_results_single` (lines 211-232): an empty `ports_info`
sends the "no open ports found" message, otherwise the full summary. -/
def notify_scan_results_single (targetName target : String) (ports_info : PyDict String) :
    List Notification :=
  if ports_info = [] then [.noOpenPortsFound targetName target]
  else [.scanSummary targetName target ports_info]

/-- `notify_scan_start` (lines 264-273). -/
def notify_scan_start (targetName target ports : String) : List Notification :=
  [.scanStart targetName target ports]

/-- The per-address `ip_changes` dict built in `process_scan_result`
(lines 593-600). -/
structure IpChanges where
  has_new_ports : Bool
  new_ports : List Int
  has_changed_services : Bool
  changed_services : PyDict (String × String)
  services : PyDict String
  all_ports : List Int
deriving DecidableEq

/-- The grouping loop of `process_scan_result` (lines 559-567): for every
record append its port to the list of its address (`ports_by_ip[ip]
.append(port)` — no deduplication). -/
def ports_by_ip (results : List ScanRecord) : PyDict (List Int) :=
  results.foldl
    (fun acc r => dictInsert acc r.ip ((dictGet? acc r.ip).getD [] ++ [r.port])) []

/-- Line 582: `services = {str(port): service_info for port, service_info in
services_int_keys.items()}`. -/
def services_of (identify : String → List Int → List (Int × String))
    (ip : String) (ports : List Int) : PyDict String :=
  (identify ip ports).foldl (fun d pr => dictInsert d (toString pr.1) pr.2) []

/-- Lines 580-600 for one address: probe the full port batch, diff against
history, and build `ip_changes`. -/
def ip_changes_of (identify : String → List Int → List (Int × String))
    (hist : ScanHistory) (ip : String) (ports : List Int) : IpChanges :=
  let services := services_of identify ip ports
  let new_ports := hist.find_new_ports ip ports
  let changed_services := hist.find_changed_services ip services
  { has_new_ports := !new_ports.isEmpty,
    new_ports := new_ports,
    has_changed_services := !changed_services.isEmpty,
    changed_services := changed_services,
    services := services,
    all_ports := ports }

/-- The body of the per-address loop of `process_scan_result`
(lines 574-627): compute the changes, in scheduled mode send the per-address
notifications (each guarded by non-emptiness), update the history, and
record the changes under the address. -/
def process_ip_step (identify : String → List Int → List (Int × String))
    (is_scheduled : Bool) (now : String)
    (acc : PyDict IpChanges × ScanHistory × List Notification)
    (g : String × List Int) : PyDict IpChanges × ScanHistory × List Notification :=
  let c := ip_changes_of identify acc.2.1 g.1 g.2
  let sent :=
    if is_scheduled then
      notify_new_ports g.1 c.new_ports c.services ++
        notify_changed_services g.1 c.changed_services
    else []
  (dictInsert acc.1 g.1 c,
   acc.2.1.update_ports g.1 g.2 c.services now,
   acc.2.2 ++ sent)

/-- `PortScannerOrchestrator.process_scan_result` (lines 544-629): empty
results are returned as-is; otherwise group by address and run the
per-address loop. Returns the `changes_detected` dict, the mutated history
and the notifications sent. -/
def process_scan_result (identify : String → List Int → List (Int × String))
    (hist : ScanHistory) (results : List ScanRecord) (is_scheduled : Bool)
    (now : String) : PyDict IpChanges × ScanHistory × List Notification :=
  if results = [] then ([], hist, [])
  else (ports_by_ip results).foldl (process_ip_step identify is_scheduled now) ([], hist, [])

/-- The entries added to `changes_detected` by the per-address loop, in loop
order, with the history threaded through the updates. -/
def collect_changes (identify : String → List Int → List (Int × String))
    (now : String) (hist : ScanHistory) :
    List (String × List Int) → List (String × IpChanges)
  | [] => []
  | g :: gs =>
    let c := ip_changes_of identify hist g.1 g.2
    (g.1, c) :: collect_changes identify now (hist.update_ports g.1 g.2 c.services now) gs

/-- The notifications sent by the per-address loop in scheduled mode, in loop
order, with the history threaded through the updates. -/
def emitted_notifs (identify : String → List Int → List (Int × String))
    (now : String) (hist : ScanHistory) :
    List (String × List Int) → List Notification
  | [] => []
  | g :: gs =>
    let c := ip_changes_of identify hist g.1 g.2
    (notify_new_ports g.1 c.new_ports c.services ++
       notify_changed_services g.1 c.changed_services) ++
      emitted_notifs identify now (hist.update_ports g.1 g.2 c.services now) gs

/-- The history after the per-address loop. -/
def final_history (identify : String → List Int → List (Int × String))
    (now : String) (hist : ScanHistory) :
    List (String × List Int) → ScanHistory
  | [] => hist
  | g :: gs =>
    let c := ip_changes_of identify hist g.1 g.2
    final_history identify now (hist.update_ports g.1 g.2 c.services now) gs

/-- One target of the configuration (`{"name": ..., "target": ...,
"ports": ...}`); `name` is read with `.get("name", "Unknown")`, the other
two by indexing. -/
structure TargetConfig where
  name : Option String
  target : String
  ports : String
deriving DecidableEq

/-- `target_config.get("name", "Unknown")`. -/
def TargetConfig.getName (tc : TargetConfig) : String :=
  tc.name.getD "Unknown"

/-- Lines 664-668: flatten all addresses' services into
`ports_info[f"{ip}:{port}"] = service`. -/
def ports_info_of (changes : PyDict IpChanges) : PyDict String :=
  changes.foldl
    (fun pi e =>
      e.2.services.foldl (fun pj sv => dictInsert pj (e.1 ++ ":" ++ sv.1) sv.2) pi) []

/-- `PortScannerOrchestrator.run_scan` (lines 631-677) as a function of the
masscan results: in one-shot mode send the start notification; on empty
results send the one-shot summary (the "no open ports" branch) and return;
otherwise process the results and, in one-shot mode, send the full summary. -/
def run_scan (identify : String → List Int → List (Int × String))
    (hist : ScanHistory) (scan_results : List ScanRecord) (tc : TargetConfig)
    (is_scheduled : Bool) (now : String) :
    PyDict IpChanges × ScanHistory × List Notification :=
  let start_notifs :=
    if is_scheduled then [] else notify_scan_start tc.getName tc.target tc.ports
  if scan_results = [] then
    ([], hist,
      start_notifs ++
        (if is_scheduled then [] else notify_scan_results_single tc.getName tc.target []))
  else
    let r := process_scan_result identify hist scan_results is_scheduled now
    let final_notifs :=
      if is_scheduled then []
      else notify_scan_results_single tc.getName tc.target (ports_info_of r.1)
    (r.1, r.2.1, start_notifs ++ r.2.2 ++ final_notifs)

/-- What happened for one target in `run_all_scans`: the target's `run_scan`
completed (with the changes it computed), or its exception was caught and
logged with the target's name. -/
inductive RunAllEvent where
  | completed (targetName : String) (changes : PyDict IpChanges) : RunAllEvent
  | errorLogged (targetName : String) (err : String) : RunAllEvent
deriving DecidableEq

/-- One iteration of the `run_all_scans` loop (lines 689-696): `try: await
self.run_scan(...) except Exception as e: logging.error(..., target_name,
...); continue`. The awaited `run_scan` call (together with its I/O) is the
parameter `runScan`; `Except.error` models a raised exception. -/
def run_all_step (runScan : TargetConfig → Except String (PyDict IpChanges))
    (tc : TargetConfig) : RunAllEvent :=
  match runScan tc with
  | .ok c => .completed tc.getName c
  | .error e => .errorLogged tc.getName e

/-- `PortScannerOrchestrator.run_all_scans` (lines 679-701): the sequential
per-target loop, each iteration isolated by its own try/except. -/
def run_all_scans (runScan : TargetConfig → Except String (PyDict IpChanges))
    (targets : List TargetConfig) : List RunAllEvent :=
  targets.foldl (fun evs tc => evs ++ [run_all_step runScan tc]) []

/-- A one-shot full-results summary for the given target: either of the two
messages `notify_scan_results_single` can send. -/
def isFullSummary (targetName target : String) : Notification → Prop
  | .noOpenPortsFound n t => n = targetName ∧ t = target
  | .scanSummary n t _ => n = targetName ∧ t = target
  | _ => False

/-! ## Association-list (Python dict) lemmas -/

theorem dictHasKey_eq_isSome {α : Type} (d : PyDict α) (k : String) :
    dictHasKey d k = (dictGet? d k).isSome := by
  induction d with
  | nil => rfl
  | cons hd t ih =>
    obtain ⟨k0, v0⟩ := hd
    by_cases h : k0 = k
    · simp [dictHasKey, dictGet?, h]
    · simp only [dictHasKey, List.any_cons] at ih ⊢
      simp [dictGet?, h, ih]

theorem dictGet?_append_of_none {α : Type} {a : PyDict α} (b : PyDict α) {key : String}
    (h : dictGet? a key = none) : dictGet? (a ++ b) key = dictGet? b key := by
  induction a with
  | nil => simp
  | cons hd t ih =>
    obtain ⟨k0, v0⟩ := hd
    by_cases h0 : k0 = key
    · simp [dictGet?, h0] at h
    · simp only [dictGet?, if_neg h0] at h
      simpa [dictGet?, h0] using ih h

theorem dictGet?_append_of_some {α : Type} {a : PyDict α} (b : PyDict α) {key : String}
    {v : α} (h : dictGet? a key = some v) : dictGet? (a ++ b) key = some v := by
  induction a with
  | nil => simp [dictGet?] at h
  | cons hd t ih =>
    obtain ⟨k0, v0⟩ := hd
    by_cases h0 : k0 = key
    · simp only [dictGet?, if_pos h0] at h
      simp [dictGet?, h0, h]
    · simp only [dictGet?, if_neg h0] at h
      simpa [dictGet?, h0] using ih h

theorem dictGet?_mapReplace_self {α : Type} (d : PyDict α) (k : String) (v : α)
    (hmem : (dictGet? d k).isSome) :
    dictGet? (d.map (fun p => if p.1 = k then (k, v) else p)) k = some v := by
  induction d with
  | nil => simp [dictGet?] at hmem
  | cons hd t ih =>
    obtain ⟨k0, v0⟩ := hd
    by_cases h0 : k0 = k
    · subst h0
      have hhead : (if ((k0, v0) : String × α).1 = k0 then (k0, v) else (k0, v0)) = (k0, v) := by
        simp
      rw [List.map_cons, hhead]
      simp [dictGet?]
    · have hhead : (if ((k0, v0) : String × α).1 = k then (k, v) else (k0, v0)) = (k0, v0) := by
        simp [h0]
      rw [List.map_cons, hhead]
      simp only [dictGet?, if_neg h0] at hmem ⊢
      exact ih hmem

theorem dictGet?_mapReplace_ne {α : Type} (d : PyDict α) (k : String) (v : α)
    (key : String) (hne : key ≠ k) :
    dictGet? (d.map (fun p => if p.1 = k then (k, v) else p)) key = dictGet? d key := by
  induction d with
  | nil => rfl
  | cons hd t ih =>
    obtain ⟨k0, v0⟩ := hd
    by_cases h0 : k0 = k
    · subst h0
      have hhead : (if ((k0, v0) : String × α).1 = k0 then (k0, v) else (k0, v0)) = (k0, v) := by
        simp
      rw [List.map_cons, hhead]
      have h1 : ¬ (k0 = key) := fun h => hne h.symm
      simp only [dictGet?, if_neg h1]
      exact ih
    · have hhead : (if ((k0, v0) : String × α).1 = k then (k, v) else (k0, v0)) = (k0, v0) := by
        simp [h0]
      rw [List.map_cons, hhead]
      by_cases h1 : k0 = key
      · simp [dictGet?, h1]
      · simp only [dictGet?, if_neg h1]
        exact ih

theorem dictGet?_dictInsert {α : Type} (d : PyDict α) (k : String) (v : α) (key : String) :
    dictGet? (dictInsert d k v) key = if key = k then some v else dictGet? d key := by
  unfold dictInsert
  cases hK : dictHasKey d k with
  | true =>
    rw [if_pos rfl]
    by_cases h1 : key = k
    · subst h1
      rw [if_pos rfl]
      refine dictGet?_mapReplace_self d key v ?_
      rw [← dictHasKey_eq_isSome, hK]
    · rw [if_neg h1]
      exact dictGet?_mapReplace_ne d k v key h1
  | false =>
    rw [if_neg (by simp)]
    have hn : dictGet? d k = none := by
      rw [dictHasKey_eq_isSome] at hK
      cases hg : dictGet? d k with
      | none => rfl
      | some w => rw [hg] at hK; cases hK
    by_cases h1 : key = k
    · subst h1
      rw [if_pos rfl, dictGet?_append_of_none _ hn]
      simp [dictGet?]
    · rw [if_neg h1]
      cases hg : dictGet? d key with
      | some w => exact dictGet?_append_of_some _ hg
      | none =>
        rw [dictGet?_append_of_none _ hg]
        have h2 : ¬ (k = key) := fun h => h1 h.symm
        simp [dictGet?, h2]

theorem mem_dictInsert_elim {α : Type} {d : PyDict α} {k : String} {v : α}
    {p : String × α} (h : p ∈ dictInsert d k v) : p ∈ d ∨ p = (k, v) := by
  unfold dictInsert at h
  split at h
  · rcases List.mem_map.mp h with ⟨q, hq, hqp⟩
    by_cases h0 : q.1 = k
    · right; simp only [if_pos h0] at hqp; exact hqp.symm
    · left; simp only [if_neg h0] at hqp; exact hqp ▸ hq
  · rcases List.mem_append.mp h with h | h
    · exact Or.inl h
    · right; simpa using h

theorem mem_dictInsert_of_ne {α : Type} {d : PyDict α} {k : String} {v : α}
    {p : String × α} (hne : p.1 ≠ k) (hp : p ∈ d) : p ∈ dictInsert d k v := by
  unfold dictInsert
  split
  · exact List.mem_map.mpr ⟨p, hp, by simp [hne]⟩
  · exact List.mem_append.mpr (Or.inl hp)

theorem dictHasKey_iff_mem_keys {α : Type} (d : PyDict α) (k : String) :
    dictHasKey d k = true ↔ k ∈ dictKeys d := by
  induction d with
  | nil => simp [dictHasKey, dictKeys]
  | cons hd t ih =>
    by_cases h0 : hd.1 = k
    · simp [dictHasKey, dictKeys, h0]
    · have h1 : ¬ (k = hd.1) := fun h => h0 h.symm
      simp only [dictHasKey, List.any_cons] at ih ⊢
      simp [dictKeys, h0, h1, ih]

theorem dictKeys_dictInsert {α : Type} (d : PyDict α) (k : String) (v : α) :
    dictKeys (dictInsert d k v) =
      if dictHasKey d k then dictKeys d else dictKeys d ++ [k] := by
  unfold dictInsert
  split
  · simp only [if_pos (by assumption), dictKeys, List.map_map]
    refine List.map_congr_left ?_
    intro p _
    by_cases h0 : p.1 = k
    · simp [Function.comp, h0]
    · simp [Function.comp, h0]
  · simp [if_neg (by assumption), dictKeys]

theorem nodup_dictKeys_dictInsert {α : Type} {d : PyDict α} (k : String) (v : α)
    (h : (dictKeys d).Nodup) : (dictKeys (dictInsert d k v)).Nodup := by
  rw [dictKeys_dictInsert]
  cases hK : dictHasKey d k with
  | true => simpa using h
  | false =>
    have hk : k ∉ dictKeys d := fun hm => by
      rw [(dictHasKey_iff_mem_keys d k).mpr hm] at hK; cases hK
    rw [if_neg (by simp)]
    simp [List.nodup_append, h, hk]

theorem dictGet?_eq_some_of_mem {α : Type} {d : PyDict α} {k : String} {v : α}
    (hnd : (dictKeys d).Nodup) (hm : (k, v) ∈ d) : dictGet? d k = some v := by
  induction d with
  | nil => cases hm
  | cons hd t ih =>
    obtain ⟨k0, v0⟩ := hd
    rw [dictKeys, List.map_cons] at hnd
    have hn1 : k0 ∉ List.map Prod.fst t := (List.nodup_cons.mp hnd).1
    have hn2 : (List.map Prod.fst t).Nodup := (List.nodup_cons.mp hnd).2
    rcases List.mem_cons.mp hm with h | h
    · rw [Prod.ext_iff] at h
      obtain ⟨h1, h2⟩ := h
      dsimp only at h1 h2
      subst h1; subst h2
      simp [dictGet?]
    · have hk : ¬ k0 = k := by
        rintro rfl
        exact hn1 (List.mem_map.mpr ⟨(k0, v), h, rfl⟩)
      simp only [dictGet?, if_neg hk]
      exact ih hn2 h

theorem mem_of_dictGet? {α : Type} {d : PyDict α} {k : String} {v : α}
    (h : dictGet? d k = some v) : (k, v) ∈ d := by
  induction d with
  | nil => cases h
  | cons hd t ih =>
    obtain ⟨k0, v0⟩ := hd
    by_cases h0 : k0 = k
    · subst h0
      simp only [dictGet?] at h
      simp at h
      subst h
      exact List.mem_cons_self _ _
    · simp only [dictGet?, if_neg h0] at h
      exact List.mem_cons_of_mem _ (ih h)

theorem dictUpdate_cons {α : Type} (d : PyDict α) (p : String × α) (t : PyDict α) :
    dictUpdate d (p :: t) = dictUpdate (dictInsert d p.1 p.2) t := rfl

theorem dictGet?_dictUpdate_of_not_mem {α : Type} {new : PyDict α} {k : String}
    (d : PyDict α) (h : k ∉ dictKeys new) :
    dictGet? (dictUpdate d new) k = dictGet? d k := by
  induction new generalizing d with
  | nil => rfl
  | cons hd t ih =>
    have hk : k ≠ hd.1 := by
      intro hk; exact h (by simp [dictKeys, hk])
    have ht : k ∉ dictKeys t := by
      intro hm
      simp only [dictKeys, List.map_cons] at h
      exact h (List.mem_cons_of_mem _ hm)
    rw [dictUpdate_cons, ih _ ht, dictGet?_dictInsert, if_neg hk]

theorem dictGet?_dictUpdate_of_mem {α : Type} {new : PyDict α} {k : String} {v : α}
    (d : PyDict α) (hnd : (dictKeys new).Nodup) (hm : (k, v) ∈ new) :
    dictGet? (dictUpdate d new) k = some v := by
  induction new generalizing d with
  | nil => cases hm
  | cons hd t ih =>
    obtain ⟨k0, v0⟩ := hd
    rw [dictKeys, List.map_cons] at hnd
    have hn1 : k0 ∉ List.map Prod.fst t := (List.nodup_cons.mp hnd).1
    have hn2 : (List.map Prod.fst t).Nodup := (List.nodup_cons.mp hnd).2
    rcases List.mem_cons.mp hm with h | h
    · rw [Prod.ext_iff] at h
      obtain ⟨h1, h2⟩ := h
      dsimp only at h1 h2
      subst h1; subst h2
      rw [dictUpdate_cons]
      rw [dictGet?_dictUpdate_of_not_mem _ (by exact hn1)]
      simp [dictGet?_dictInsert]
    · rw [dictUpdate_cons]
      exact ih _ hn2 h

/-! ## Finset sort lemmas -/

theorem toFinset_sort_le (s : Finset Int) :
    (Finset.sort (· ≤ ·) s).toFinset = s := by
  ext a
  simp [Finset.mem_sort]

/-! ## ScanHistory lemmas -/

theorem update_ports_lookup (h : ScanHistory) (ip : String) (P : List Int)
    (S : PyDict String) (now : String) :
    ∃ fs, dictGet? (h.update_ports ip P S now).data ip =
      some { first_scanned := fs,
             ports := Finset.sort (· ≤ ·) P.toFinset,
             services := dictUpdate (previousServices h ip) S,
             last_scanned := now } := by
  unfold ScanHistory.update_ports
  cases hK : dictHasKey h.data ip with
  | true =>
    have hs : (dictGet? h.data ip).isSome := by rw [← dictHasKey_eq_isSome, hK]
    obtain ⟨e0, he0⟩ := Option.isSome_iff_exists.mp hs
    refine ⟨e0.first_scanned, ?_⟩
    simp [hK, he0, dictGet?_dictInsert, previousServices]
  | false =>
    have hn : dictGet? h.data ip = none := by
      rw [dictHasKey_eq_isSome] at hK
      cases hg : dictGet? h.data ip with
      | none => rfl
      | some w => rw [hg] at hK; cases hK
    refine ⟨now, ?_⟩
    simp [hK, hn, dictGet?_dictInsert, previousServices]

theorem get_previous_ports_update (h : ScanHistory) (ip : String) (P : List Int)
    (S : PyDict String) (now : String) :
    (h.update_ports ip P S now).get_previous_ports ip = P.toFinset := by
  obtain ⟨fs, hl⟩ := update_ports_lookup h ip P S now
  unfold ScanHistory.get_previous_ports
  rw [hl]
  simp [toFinset_sort_le]

/-- C1: for every address `A`, port list `P` and services mapping `S`,
immediately after `ScanHistory.update_ports A P S`, `get_previous_ports A`
equals the set of elements of `P`, and the stored ports list for `A` is
sorted ascending with no duplicates and holds exactly the elements of `P`
(full replacement of any previously stored ports for `A`). -/
theorem claim_C1_update_ports_full_replace (h : ScanHistory) (ip : String)
    (P : List Int) (S : PyDict String) (now : String) :
    (h.update_ports ip P S now).get_previous_ports ip = P.toFinset ∧
    ∃ e, dictGet? (h.update_ports ip P S now).data ip = some e ∧
      List.Sorted (· ≤ ·) e.ports ∧ e.ports.Nodup ∧ e.ports.toFinset = P.toFinset := by
  refine ⟨get_previous_ports_update h ip P S now, ?_⟩
  obtain ⟨fs, hl⟩ := update_ports_lookup h ip P S now
  refine ⟨_, hl, ?_, ?_, ?_⟩
  · show List.Sorted (· ≤ ·) (Finset.sort (· ≤ ·) P.toFinset)
    exact Finset.sort_sorted _ _
  · show (Finset.sort (· ≤ ·) P.toFinset).Nodup
    exact Finset.sort_nodup _ _
  · show (Finset.sort (· ≤ ·) P.toFinset).toFinset = P.toFinset
    exact toFinset_sort_le _

/-- C2: after `update_ports A P S` has run, a subsequent
`find_new_ports A P` with the same port list returns the empty list. -/
theorem claim_C2_find_new_ports_idempotent (h : ScanHistory) (ip : String)
    (P : List Int) (S : PyDict String) (now : String) :
    (h.update_ports ip P S now).find_new_ports ip P = [] := by
  unfold ScanHistory.find_new_ports
  rw [get_previous_ports_update h ip P S now]
  simp

theorem changed_fold_mem (svc : PyDict String) (cur : PyDict String)
    (acc : PyDict (String × String)) (p : String × (String × String))
    (h : p ∈ cur.foldl (changed_step svc) acc) :
    p ∈ acc ∨ (dictGet? svc p.1 = some p.2.1 ∧ p.2.1 ≠ "" ∧ p.2.1 ≠ p.2.2) := by
  induction cur generalizing acc with
  | nil => exact Or.inl h
  | cons pr t ih =>
    rcases ih (changed_step svc acc pr) (by simpa using h) with hacc | hq
    · by_cases hcond : (dictGet? svc pr.1).getD "" ≠ "" ∧ (dictGet? svc pr.1).getD "" ≠ pr.2
      · unfold changed_step at hacc
        rw [if_pos hcond] at hacc
        rcases mem_dictInsert_elim hacc with hacc | hacc
        · exact Or.inl hacc
        · subst hacc
          refine Or.inr ⟨?_, hcond.1, hcond.2⟩
          cases hg : dictGet? svc pr.1 with
          | none => rw [hg] at hcond; simp at hcond
          | some w => simp [hg]
      · unfold changed_step at hacc
        rw [if_neg hcond] at hacc
        exact Or.inl hacc
    · exact Or.inr hq

/-- C3: `find_changed_services A S` never flags a port without a previously
stored banner: every flagged port comes with a stored entry for the address
whose recorded old banner is non-empty and differs from the new one, so a
first-ever banner (no stored entry, or an unknown address) is never
reported. -/
theorem claim_C3_changed_services_need_prior_banner (h : ScanHistory)
    (ip : String) (cur : PyDict String) (port oldb newb : String)
    (hmem : (port, (oldb, newb)) ∈ h.find_changed_services ip cur) :
    ∃ e, dictGet? h.data ip = some e ∧ dictGet? e.services port = some oldb ∧
      oldb ≠ "" ∧ oldb ≠ newb := by
  unfold ScanHistory.find_changed_services at hmem
  cases hd : dictGet? h.data ip with
  | none => rw [hd] at hmem; cases hmem
  | some e =>
    rw [hd] at hmem
    rcases changed_fold_mem e.services cur [] _ hmem with hnil | hq
    · cases hnil
    · exact ⟨e, rfl, hq.1, hq.2.1, hq.2.2⟩

/-- C3 witness: a stored banner for port 22 that differs from the new one is
flagged, and the theorem recovers the stored-entry facts for it. -/
theorem claim_C3_witness :
    ("22", ("ssh OpenSSH 8.2", "ssh OpenSSH 8.3")) ∈
      (ScanHistory.mk [("10.0.0.5",
        { first_scanned := "t0", ports := [22],
          services := [("22", "ssh OpenSSH 8.2")], last_scanned := "t0" })]
        ).find_changed_services "10.0.0.5" [("22", "ssh OpenSSH 8.3")] ∧
    (∃ e, dictGet? (ScanHistory.mk [("10.0.0.5",
        { first_scanned := "t0", ports := [22],
          services := [("22", "ssh OpenSSH 8.2")], last_scanned := "t0" })]).data
        "10.0.0.5" = some e ∧
      dictGet? e.services "22" = some "ssh OpenSSH 8.2" ∧
      "ssh OpenSSH 8.2" ≠ "" ∧ "ssh OpenSSH 8.2" ≠ "ssh OpenSSH 8.3") :=
  ⟨by decide,
   claim_C3_changed_services_need_prior_banner
     (ScanHistory.mk [("10.0.0.5",
       { first_scanned := "t0", ports := [22],
         services := [("22", "ssh OpenSSH 8.2")], last_scanned := "t0" })])
     "10.0.0.5" [("22", "ssh OpenSSH 8.3")] "22" "ssh OpenSSH 8.2" "ssh OpenSSH 8.3"
     (by decide)⟩

/-- C4: `update_ports` replaces the ports list (membership in the stored
list is exactly membership in the current scan's list, so a port absent from
the latest scan is dropped) but merges the services mapping: a stored banner
whose key is absent from the current mapping is left unchanged — in
particular a dropped port's stale banner persists — and a key present in the
current mapping is overwritten with the new value. -/
theorem claim_C4_ports_replace_services_merge (h : ScanHistory) (ip : String)
    (P : List Int) (S : PyDict String) (now : String)
    (hS : (dictKeys S).Nodup) :
    ∃ e, dictGet? (h.update_ports ip P S now).data ip = some e ∧
      (∀ q : Int, q ∈ e.ports ↔ q ∈ P) ∧
      (∀ k, k ∉ dictKeys S →
        dictGet? e.services k = dictGet? (previousServices h ip) k) ∧
      (∀ k v, (k, v) ∈ S → dictGet? e.services k = some v) := by
  obtain ⟨fs, hl⟩ := update_ports_lookup h ip P S now
  refine ⟨_, hl, ?_, ?_, ?_⟩
  · intro q
    simp [Finset.mem_sort]
  · intro k hk
    exact dictGet?_dictUpdate_of_not_mem _ hk
  · intro k v hm
    exact dictGet?_dictUpdate_of_mem _ hS hm

/-- C4 witness: updating `\x7b22, 80\x7d` to `\x7b22, 443\x7d` drops port 80
from `ports`, keeps its stale banner in `services`, and overwrites the
banner for port 22. -/
theorem claim_C4_witness :
    (dictKeys [("22", "ssh"), ("443", "https")]).Nodup ∧
    (∃ e, dictGet? ((ScanHistory.mk [("10.0.0.5",
        { first_scanned := "t0", ports := [22, 80],
          services := [("22", "old-ssh"), ("80", "http nginx")],
          last_scanned := "t0" })]).update_ports "10.0.0.5" [22, 443]
          [("22", "ssh"), ("443", "https")] "t1").data "10.0.0.5" = some e ∧
      (∀ q : Int, q ∈ e.ports ↔ q ∈ [22, 443]) ∧
      (∀ k, k ∉ dictKeys [("22", "ssh"), ("443", "https")] →
        dictGet? e.services k =
          dictGet? (previousServices (ScanHistory.mk [("10.0.0.5",
            { first_scanned := "t0", ports := [22, 80],
              services := [("22", "old-ssh"), ("80", "http nginx")],
              last_scanned := "t0" })]) "10.0.0.5") k) ∧
      (∀ k v, (k, v) ∈ [("22", "ssh"), ("443", "https")] →
        dictGet? e.services k = some v)) :=
  ⟨by decide,
   claim_C4_ports_replace_services_merge
     (ScanHistory.mk [("10.0.0.5",
       { first_scanned := "t0", ports := [22, 80],
         services := [("22", "old-ssh"), ("80", "http nginx")],
         last_scanned := "t0" })])
     "10.0.0.5" [22, 443] [("22", "ssh"), ("443", "https")] "t1" (by decide)⟩

/-- C5 (amended): for output lines consisting of a decodable JSON record, a
lone comma, a second decodable JSON record and the line `x`, the parsing
loop yields exactly the records of the two valid lines; the comma and `x`
lines are skipped individually by the pre-decode delimiter and
minimum-length filters — silently, with zero logged skips (only lines that
reach JSON decoding and fail are logged) — and nothing raises, so
`MasscanScanner.scan` returns exactly those records. -/
theorem claim_C5_parse_skips_delimiters (l1 l2 : String) (r1 r2 : List ScanRecord)
    (h1 : processLine l1 = LineStep.recs r1) (h2 : processLine l2 = LineStep.recs r2) :
    parseLines [l1, ",", l2, "x"] = some (r1 ++ r2, 0) ∧
    MasscanScanner.scan (.completed 0 true [l1, ",", l2, "x"]) =
      { records := r1 ++ r2, failureLogged := false } := by
  have hcomma : processLine "," = LineStep.skip := by decide
  have hx : processLine "x" = LineStep.skip := by decide
  have hp : parseLines [l1, ",", l2, "x"] = some (r1 ++ r2, 0) := by
    unfold parseLines
    simp only [List.foldl, parseLinesStep, h1, hcomma, hx, h2]
    simp
  refine ⟨hp, ?_⟩
  simp only [MasscanScanner.scan]
  rw [if_neg (by simp), if_neg (by simp), hp]

/-- C5 witness: two concrete masscan output records around the two malformed
lines are both recovered, with zero logged skips. -/
theorem claim_C5_witness :
    processLine "\x7b\"ip\": \"10.0.0.1\", \"ports\": [\x7b\"port\": 80, \"proto\": \"tcp\", \"status\": \"open\"\x7d]\x7d" =
      LineStep.recs [{ ip := "10.0.0.1", port := 80, protocol := "tcp", status := "open" }] ∧
    processLine "\x7b\"ip\": \"10.0.0.2\", \"ports\": [\x7b\"port\": 443\x7d]\x7d" =
      LineStep.recs [{ ip := "10.0.0.2", port := 443, protocol := "tcp", status := "open" }] ∧
    (parseLines ["\x7b\"ip\": \"10.0.0.1\", \"ports\": [\x7b\"port\": 80, \"proto\": \"tcp\", \"status\": \"open\"\x7d]\x7d", ",",
        "\x7b\"ip\": \"10.0.0.2\", \"ports\": [\x7b\"port\": 443\x7d]\x7d", "x"] =
      some ([{ ip := "10.0.0.1", port := 80, protocol := "tcp", status := "open" },
             { ip := "10.0.0.2", port := 443, protocol := "tcp", status := "open" }], 0) ∧
     MasscanScanner.scan (.completed 0 true
        ["\x7b\"ip\": \"10.0.0.1\", \"ports\": [\x7b\"port\": 80, \"proto\": \"tcp\", \"status\": \"open\"\x7d]\x7d", ",",
         "\x7b\"ip\": \"10.0.0.2\", \"ports\": [\x7b\"port\": 443\x7d]\x7d", "x"]) =
      { records := [{ ip := "10.0.0.1", port := 80, protocol := "tcp", status := "open" },
                    { ip := "10.0.0.2", port := 443, protocol := "tcp", status := "open" }],
        failureLogged := false }) :=
  ⟨by decide, by decide,
   claim_C5_parse_skips_delimiters
     "\x7b\"ip\": \"10.0.0.1\", \"ports\": [\x7b\"port\": 80, \"proto\": \"tcp\", \"status\": \"open\"\x7d]\x7d"
     "\x7b\"ip\": \"10.0.0.2\", \"ports\": [\x7b\"port\": 443\x7d]\x7d"
     [{ ip := "10.0.0.1", port := 80, protocol := "tcp", status := "open" }]
     [{ ip := "10.0.0.2", port := 443, protocol := "tcp", status := "open" }]
     (by decide) (by decide)⟩

/-- C5 counterexample to the claim as stated: on a concrete file of exactly
this shape the parser performs zero logged skips, not two — the comma and
`x` lines are filtered before JSON decoding and no log call runs for them. -/
theorem claim_C5_counterexample :
    parseLines ["\x7b\"ip\": \"10.0.0.1\", \"ports\": [\x7b\"port\": 80, \"proto\": \"tcp\", \"status\": \"open\"\x7d]\x7d", ",",
        "\x7b\"ip\": \"10.0.0.2\", \"ports\": [\x7b\"port\": 443\x7d]\x7d", "x"] =
      some ([{ ip := "10.0.0.1", port := 80, protocol := "tcp", status := "open" },
             { ip := "10.0.0.2", port := 443, protocol := "tcp", status := "open" }], 0) ∧
    (parseLines ["\x7b\"ip\": \"10.0.0.1\", \"ports\": [\x7b\"port\": 80, \"proto\": \"tcp\", \"status\": \"open\"\x7d]\x7d", ",",
        "\x7b\"ip\": \"10.0.0.2\", \"ports\": [\x7b\"port\": 443\x7d]\x7d", "x"]).map Prod.snd ≠
      some 2 := by
  decide

/-- C6: `MasscanScanner.scan` returns an empty record list with the failure
logged in every failure case — an exit code other than the accepted 0 and 1,
a missing output file, an exception escaping the parsing loop (caught by the
generic handler), a subprocess timeout, and any other subprocess failure —
and, being total on every outcome, never raises to its caller. -/
theorem claim_C6_scan_failures_return_empty (rc rc2 : Int) (ex : Bool)
    (ls ls2 ls3 : List String) (hrc : ¬(rc = 0 ∨ rc = 1))
    (hparse : parseLines ls3 = none) :
    MasscanScanner.scan (.completed rc ex ls) = { records := [], failureLogged := true } ∧
    MasscanScanner.scan (.completed rc2 false ls2) = { records := [], failureLogged := true } ∧
    MasscanScanner.scan (.completed 0 true ls3) = { records := [], failureLogged := true } ∧
    MasscanScanner.scan .timeoutExpired = { records := [], failureLogged := true } ∧
    MasscanScanner.scan .otherFailure = { records := [], failureLogged := true } := by
  refine ⟨?_, ?_, ?_, rfl, rfl⟩
  · simp only [MasscanScanner.scan]
    rw [if_pos hrc]
  · simp only [MasscanScanner.scan]
    by_cases hrc2 : ¬(rc2 = 0 ∨ rc2 = 1)
    · rw [if_pos hrc2]
    · rw [if_neg hrc2, if_pos (by simp)]
  · simp only [MasscanScanner.scan]
    rw [if_neg (by simp), if_neg (by simp), hparse]

/-- C6 witness: exit code 2 fails, a missing output file fails, and a
decodable line whose value raises during record extraction (a bare number,
for which the `in` check raises `TypeError`) is caught and yields the empty
result, with the failure logged in each case. -/
theorem claim_C6_witness :
    (¬((2 : Int) = 0 ∨ (2 : Int) = 1)) ∧ parseLines ["12345678901"] = none ∧
    (MasscanScanner.scan (.completed 2 true ["x"]) = { records := [], failureLogged := true } ∧
     MasscanScanner.scan (.completed 0 false ["x"]) = { records := [], failureLogged := true } ∧
     MasscanScanner.scan (.completed 0 true ["12345678901"]) = { records := [], failureLogged := true } ∧
     MasscanScanner.scan .timeoutExpired = { records := [], failureLogged := true } ∧
     MasscanScanner.scan .otherFailure = { records := [], failureLogged := true }) :=
  ⟨by decide, by decide,
   claim_C6_scan_failures_return_empty 2 0 true ["x"] ["x"] ["12345678901"]
     (by decide) (by decide)⟩

/-- C7: contrary to the claim, the `subprocess.run` invocation of the masscan
sweeper passes no `timeout=` argument at all — its wait is unbounded — while
the configured timeout is applied only to the `which masscan` install check.
The dead `TimeoutExpired` handler in `scan` shows the bound was intended. -/
theorem claim_C7_masscan_run_call_has_no_timeout (target ports : String)
    (rate : Nat) (output_file : String) (t : Nat) :
    (masscan_scan_run_call target ports rate output_file).timeout = none ∧
    (check_masscan_run_call t).timeout = some t :=
  ⟨rfl, rfl⟩

theorem run_all_scans_eq_map (f : TargetConfig → Except String (PyDict IpChanges))
    (ts : List TargetConfig) : run_all_scans f ts = ts.map (run_all_step f) := by
  unfold run_all_scans
  suffices h : ∀ acc : List RunAllEvent,
      ts.foldl (fun evs tc => evs ++ [run_all_step f tc]) acc =
        acc ++ ts.map (run_all_step f) by
    simpa using h []
  induction ts with
  | nil => intro acc; simp
  | cons hd t ih => intro acc; simp [List.foldl, ih]

/-- C8: `run_all_scans` isolates per-target failures: when one target's
`run_scan` raises, the loop logs the error with that target's name and every
other target — before and after it — is processed exactly as it would have
been, so a single failure neither aborts the run nor affects the others'
results. -/
theorem claim_C8_run_all_scans_isolates
    (f : TargetConfig → Except String (PyDict IpChanges))
    (pre post : List TargetConfig) (tc : TargetConfig) (e : String)
    (hf : f tc = .error e) :
    run_all_scans f (pre ++ tc :: post) =
      run_all_scans f pre ++
        RunAllEvent.errorLogged tc.getName e :: run_all_scans f post := by
  rw [run_all_scans_eq_map, run_all_scans_eq_map, run_all_scans_eq_map,
    List.map_append, List.map_cons]
  have hstep : run_all_step f tc = RunAllEvent.errorLogged tc.getName e := by
    unfold run_all_step
    rw [hf]
  rw [hstep]

/-- C8 witness: with three targets of which the middle one raises during its
scan, the run logs the failure under that target's name and both other
targets complete with their own results. -/
theorem claim_C8_witness :
    (fun t : TargetConfig =>
        if t.target = "10.0.0.2" then (Except.error "boom" : Except String (PyDict IpChanges))
        else Except.ok []) ⟨some "beta", "10.0.0.2", "80"⟩ = Except.error "boom" ∧
    run_all_scans
        (fun t : TargetConfig =>
          if t.target = "10.0.0.2" then (Except.error "boom" : Except String (PyDict IpChanges))
          else Except.ok [])
        ([⟨some "alpha", "10.0.0.1", "80"⟩] ++
          (⟨some "beta", "10.0.0.2", "80"⟩ : TargetConfig) :: [⟨some "gamma", "10.0.0.3", "80"⟩]) =
      run_all_scans
        (fun t : TargetConfig =>
          if t.target = "10.0.0.2" then (Except.error "boom" : Except String (PyDict IpChanges))
          else Except.ok [])
        [⟨some "alpha", "10.0.0.1", "80"⟩] ++
        RunAllEvent.errorLogged (TargetConfig.getName ⟨some "beta", "10.0.0.2", "80"⟩) "boom" ::
          run_all_scans
            (fun t : TargetConfig =>
              if t.target = "10.0.0.2" then (Except.error "boom" : Except String (PyDict IpChanges))
              else Except.ok [])
            [⟨some "gamma", "10.0.0.3", "80"⟩] :=
  ⟨rfl,
   claim_C8_run_all_scans_isolates
     (fun t : TargetConfig =>
       if t.target = "10.0.0.2" then (Except.error "boom" : Except String (PyDict IpChanges))
       else Except.ok [])
     [⟨some "alpha", "10.0.0.1", "80"⟩] [⟨some "gamma", "10.0.0.3", "80"⟩]
     ⟨some "beta", "10.0.0.2", "80"⟩ "boom" rfl⟩

theorem ports_by_ip_keys_nodup (rs : List ScanRecord) :
    (dictKeys (ports_by_ip rs)).Nodup := by
  suffices h : ∀ acc : PyDict (List Int), (dictKeys acc).Nodup →
      (dictKeys (rs.foldl
        (fun acc r => dictInsert acc r.ip ((dictGet? acc r.ip).getD [] ++ [r.port]))
        acc)).Nodup by
    exact h [] (by simp [dictKeys])
  induction rs with
  | nil => intro acc hacc; exact hacc
  | cons r t ih =>
    intro acc hacc
    exact ih _ (nodup_dictKeys_dictInsert _ _ hacc)

theorem ports_by_ip_lookup (rs : List ScanRecord) (ip : String) :
    dictGet? (ports_by_ip rs) ip =
      if (rs.filter (fun r => r.ip = ip)).map ScanRecord.port = [] then none
      else some ((rs.filter (fun r => r.ip = ip)).map ScanRecord.port) := by
  suffices h : ∀ acc : PyDict (List Int),
      dictGet? (rs.foldl
        (fun acc r => dictInsert acc r.ip ((dictGet? acc r.ip).getD [] ++ [r.port])) acc) ip =
        match dictGet? acc ip with
        | some ps => some (ps ++ (rs.filter (fun r => r.ip = ip)).map ScanRecord.port)
        | none =>
          if (rs.filter (fun r => r.ip = ip)).map ScanRecord.port = [] then none
          else some ((rs.filter (fun r => r.ip = ip)).map ScanRecord.port) by
    have h0 := h []
    simpa [ports_by_ip, dictGet?] using h0
  induction rs with
  | nil =>
    intro acc
    cases hg : dictGet? acc ip <;> simp [hg]
  | cons r t ih =>
    intro acc
    simp only [List.foldl_cons]
    rw [ih]
    by_cases hip : r.ip = ip
    · subst hip
      rw [dictGet?_dictInsert, if_pos rfl]
      have hf : List.filter (fun x => x.ip = r.ip) (r :: t) =
          r :: List.filter (fun x => x.ip = r.ip) t := by
        simp [List.filter_cons]
      rw [hf, List.map_cons]
      cases hacc : dictGet? acc r.ip with
      | some ps => simp
      | none => simp
    · have hne : ¬ (ip = r.ip) := fun h => hip h.symm
      rw [dictGet?_dictInsert, if_neg hne]
      have hf : List.filter (fun x => x.ip = ip) (r :: t) =
          List.filter (fun x => x.ip = ip) t := by
        simp [List.filter_cons, hip]
      rw [hf]

theorem nodup_snd_of_fst_const {β : Type} (c : String) :
    ∀ l : List (String × β), (∀ x ∈ l, x.1 = c) → l.Nodup → (l.map Prod.snd).Nodup := by
  intro l
  induction l with
  | nil => intro _ _; simp
  | cons hd t ih =>
    intro hall hnd
    obtain ⟨a, b⟩ := hd
    rw [List.map_cons]
    refine List.nodup_cons.mpr ⟨?_, ih (fun x hx => hall x (List.mem_cons_of_mem _ hx))
      (List.nodup_cons.mp hnd).2⟩
    intro hb
    rcases List.mem_map.mp hb with ⟨x, hx, hxb⟩
    have hxa : x.1 = c := hall x (List.mem_cons_of_mem _ hx)
    have haa : a = c := hall (a, b) (List.mem_cons_self _ _)
    have hxab : x = (a, b) := by
      obtain ⟨x1, x2⟩ := x
      dsimp only at hxb hxa
      rw [hxa, haa, hxb]
    exact (List.nodup_cons.mp hnd).1 (hxab ▸ hx)

theorem filter_ports_nodup (rs : List ScanRecord) (ip : String)
    (hnd : (rs.map (fun r => (r.ip, r.port))).Nodup) :
    ((rs.filter (fun r => r.ip = ip)).map ScanRecord.port).Nodup := by
  have hsub : ((rs.filter (fun r => r.ip = ip)).map (fun r => (r.ip, r.port))).Sublist
      (rs.map (fun r => (r.ip, r.port))) :=
    (List.filter_sublist rs).map _
  have h1 : ((rs.filter (fun r => r.ip = ip)).map (fun r => (r.ip, r.port))).Nodup :=
    List.Nodup.sublist hsub hnd
  have h2 : ∀ x ∈ (rs.filter (fun r => r.ip = ip)).map (fun r => (r.ip, r.port)),
      x.1 = ip := by
    intro x hx
    rcases List.mem_map.mp hx with ⟨r, hr, rfl⟩
    exact of_decide_eq_true (List.mem_filter.mp hr).2
  have h3 := nodup_snd_of_fst_const ip _ h2 h1
  have heq : (rs.filter (fun r => r.ip = ip)).map ScanRecord.port =
      ((rs.filter (fun r => r.ip = ip)).map (fun r => (r.ip, r.port))).map Prod.snd := by
    rw [List.map_map]
    rfl
  rw [heq]
  exact h3

theorem dictUpdate_append_disjoint {α : Type} :
    ∀ (l : PyDict α) (d : PyDict α),
      (∀ k ∈ dictKeys l, dictHasKey d k = false) → (dictKeys l).Nodup →
      dictUpdate d l = d ++ l := by
  intro l
  induction l with
  | nil => intro d _ _; simp [dictUpdate]
  | cons p t ih =>
    intro d hdis hnd
    obtain ⟨k0, v0⟩ := p
    have hk0 : dictHasKey d k0 = false := hdis k0 (List.mem_cons_self _ _)
    have hins : dictInsert d k0 v0 = d ++ [(k0, v0)] := by
      unfold dictInsert
      rw [if_neg (by simp [hk0])]
    have hdis' : ∀ k ∈ dictKeys t, dictHasKey (d ++ [(k0, v0)]) k = false := by
      intro k hk
      have h1 : dictHasKey d k = false := hdis k (List.mem_cons_of_mem _ hk)
      have h2 : ¬ (k0 = k) := by
        rw [dictKeys, List.map_cons] at hnd
        intro he
        exact (List.nodup_cons.mp hnd).1 (he ▸ hk)
      unfold dictHasKey at h1 ⊢
      rw [List.any_append]
      simp [h1, h2]
    have hnd' : (dictKeys t).Nodup := by
      rw [dictKeys, List.map_cons] at hnd
      exact (List.nodup_cons.mp hnd).2
    rw [dictUpdate_cons]
    dsimp only
    rw [hins, ih (d ++ [(k0, v0)]) hdis' hnd']
    simp

theorem dictUpdate_nil_of_nodup {α : Type} (l : PyDict α)
    (hnd : (dictKeys l).Nodup) : dictUpdate [] l = l := by
  have h := dictUpdate_append_disjoint l [] (fun k _ => rfl) hnd
  simpa using h

theorem process_fold_spec (identify : String → List Int → List (Int × String))
    (isS : Bool) (now : String) :
    ∀ (gs : List (String × List Int)) (cd : PyDict IpChanges) (h : ScanHistory)
      (ns : List Notification),
      gs.foldl (process_ip_step identify isS now) (cd, h, ns) =
        (dictUpdate cd (collect_changes identify now h gs),
         final_history identify now h gs,
         ns ++ (if isS then emitted_notifs identify now h gs else [])) := by
  intro gs
  induction gs with
  | nil =>
    intro cd h ns
    cases isS <;> simp [collect_changes, emitted_notifs, final_history, dictUpdate]
  | cons g t ih =>
    intro cd h ns
    simp only [List.foldl_cons]
    rw [show process_ip_step identify isS now (cd, h, ns) g =
        (dictInsert cd g.1 (ip_changes_of identify h g.1 g.2),
         h.update_ports g.1 g.2 (ip_changes_of identify h g.1 g.2).services now,
         ns ++ (if isS then
           notify_new_ports g.1 (ip_changes_of identify h g.1 g.2).new_ports
             (ip_changes_of identify h g.1 g.2).services ++
             notify_changed_services g.1 (ip_changes_of identify h g.1 g.2).changed_services
           else [])) from rfl]
    rw [ih]
    simp only [collect_changes, emitted_notifs, final_history, dictUpdate_cons]
    cases isS <;> simp

theorem process_spec (identify : String → List Int → List (Int × String))
    (hist : ScanHistory) (rs : List ScanRecord) (isS : Bool) (now : String)
    (hne : rs ≠ []) :
    process_scan_result identify hist rs isS now =
      (dictUpdate [] (collect_changes identify now hist (ports_by_ip rs)),
       final_history identify now hist (ports_by_ip rs),
       if isS then emitted_notifs identify now hist (ports_by_ip rs) else []) := by
  unfold process_scan_result
  rw [if_neg hne, process_fold_spec identify isS now (ports_by_ip rs) [] hist []]
  simp

theorem collect_keys (identify : String → List Int → List (Int × String)) (now : String) :
    ∀ (gs : List (String × List Int)) (h : ScanHistory),
      dictKeys (collect_changes identify now h gs) = gs.map Prod.fst := by
  intro gs
  induction gs with
  | nil => intro h; rfl
  | cons g t ih =>
    intro h
    simp only [collect_changes, dictKeys, List.map_cons]
    have h1 := ih (h.update_ports g.1 g.2 (ip_changes_of identify h g.1 g.2).services now)
    simp only [dictKeys] at h1
    rw [h1]

theorem emitted_mem (identify : String → List Int → List (Int × String)) (now : String) :
    ∀ (gs : List (String × List Int)) (h : ScanHistory) (n : Notification),
      n ∈ emitted_notifs identify now h gs →
      ∃ ip c, (ip, c) ∈ collect_changes identify now h gs ∧
        ((n = Notification.newPorts ip c.new_ports c.services ∧ c.new_ports ≠ []) ∨
         (n = Notification.changedServices ip c.changed_services ∧
           c.changed_services ≠ [])) := by
  intro gs
  induction gs with
  | nil => intro h n hn; cases hn
  | cons g t ih =>
    intro h n hn
    simp only [emitted_notifs] at hn
    rcases List.mem_append.mp hn with hn | hn
    · rcases List.mem_append.mp hn with hn | hn
      · unfold notify_new_ports at hn
        split at hn
        · cases hn
        · rename_i hne
          refine ⟨g.1, ip_changes_of identify h g.1 g.2, List.mem_cons_self _ _,
            Or.inl ⟨?_, hne⟩⟩
          simpa using hn
      · unfold notify_changed_services at hn
        split at hn
        · cases hn
        · rename_i hne
          refine ⟨g.1, ip_changes_of identify h g.1 g.2, List.mem_cons_self _ _,
            Or.inr ⟨?_, hne⟩⟩
          simpa using hn
    · rcases ih _ n hn with ⟨ip, c, hc, hp⟩
      exact ⟨ip, c, List.mem_cons_of_mem _ hc, hp⟩

theorem collect_all_ports (identify : String → List Int → List (Int × String))
    (now : String) :
    ∀ (gs : List (String × List Int)) (h : ScanHistory),
      (∀ g ∈ gs, (g.2 : List Int).Nodup) →
      ∀ p ∈ collect_changes identify now h gs, p.2.all_ports.Nodup := by
  intro gs
  induction gs with
  | nil => intro h _ p hp; cases hp
  | cons g t ih =>
    intro h hall p hp
    simp only [collect_changes] at hp
    rcases List.mem_cons.mp hp with hp | hp
    · subst hp
      exact hall g (List.mem_cons_self _ _)
    · exact ih _ (fun x hx => hall x (List.mem_cons_of_mem _ hx)) p hp

theorem run_scan_oneshot_nil (identify : String → List Int → List (Int × String))
    (hist : ScanHistory) (tc : TargetConfig) (now : String) :
    run_scan identify hist [] tc false now =
      ([], hist,
        [Notification.scanStart tc.getName tc.target tc.ports,
         Notification.noOpenPortsFound tc.getName tc.target]) := by
  simp [run_scan, notify_scan_start, notify_scan_results_single]

theorem run_scan_sched_nil (identify : String → List Int → List (Int × String))
    (hist : ScanHistory) (tc : TargetConfig) (now : String) :
    run_scan identify hist [] tc true now = ([], hist, []) := by
  simp [run_scan]

theorem run_scan_sched_eq_process (identify : String → List Int → List (Int × String))
    (hist : ScanHistory) (rs : List ScanRecord) (tc : TargetConfig) (now : String)
    (hne : rs ≠ []) :
    run_scan identify hist rs tc true now = process_scan_result identify hist rs true now := by
  unfold run_scan
  rw [if_neg hne]
  simp

theorem run_scan_oneshot_notifs (identify : String → List Int → List (Int × String))
    (hist : ScanHistory) (rs : List ScanRecord) (tc : TargetConfig) (now : String)
    (hne : rs ≠ []) :
    (run_scan identify hist rs tc false now).2.2 =
      Notification.scanStart tc.getName tc.target tc.ports ::
        ((process_scan_result identify hist rs false now).2.2 ++
          notify_scan_results_single tc.getName tc.target
            (ports_info_of (process_scan_result identify hist rs false now).1)) := by
  unfold run_scan
  rw [if_neg hne]
  simp [notify_scan_start]

/-- C9: notification dispatch depends on the run mode. A one-shot run always
sends a full-results summary — the "no open ports found" message when the
scan returned no results — while a scheduled run sends only per-address
change notifications, each carrying that address's non-empty `new_ports` or
non-empty `changed_services` entry of the change report; consequently a
scheduled cycle whose change report shows no new ports and no changed
services for any address sends no per-address notification at all. -/
theorem claim_C9_notification_dispatch_by_mode
    (identify : String → List Int → List (Int × String)) (hist : ScanHistory)
    (rs : List ScanRecord) (tc : TargetConfig) (now : String) :
    ((∃ n ∈ (run_scan identify hist rs tc false now).2.2,
        isFullSummary tc.getName tc.target n) ∧
     (rs = [] → Notification.noOpenPortsFound tc.getName tc.target ∈
        (run_scan identify hist rs tc false now).2.2)) ∧
    ((∀ n ∈ (run_scan identify hist rs tc true now).2.2,
        ∃ ip c, (ip, c) ∈ (run_scan identify hist rs tc true now).1 ∧
          ((n = Notification.newPorts ip c.new_ports c.services ∧ c.new_ports ≠ []) ∨
           (n = Notification.changedServices ip c.changed_services ∧
             c.changed_services ≠ []))) ∧
     ((∀ p ∈ (run_scan identify hist rs tc true now).1,
         p.2.new_ports = [] ∧ p.2.changed_services = []) →
       (run_scan identify hist rs tc true now).2.2 = [])) := by
  by_cases hrs : rs = []
  · subst hrs
    rw [run_scan_oneshot_nil identify hist tc now, run_scan_sched_nil identify hist tc now]
    refine ⟨⟨⟨Notification.noOpenPortsFound tc.getName tc.target, ?_, ⟨rfl, rfl⟩⟩,
      fun _ => ?_⟩, ⟨?_, ?_⟩⟩
    · simp
    · simp
    · intro n hn
      simp at hn
    · intro _
      rfl
  · have hk : (dictKeys (collect_changes identify now hist (ports_by_ip rs))).Nodup := by
      have h1 := collect_keys identify now (ports_by_ip rs) hist
      rw [h1]
      exact ports_by_ip_keys_nodup rs
    constructor
    · constructor
      · have hn := run_scan_oneshot_notifs identify hist rs tc now hrs
        by_cases hpi : ports_info_of (process_scan_result identify hist rs false now).1 = []
        · refine ⟨Notification.noOpenPortsFound tc.getName tc.target, ?_, ⟨rfl, rfl⟩⟩
          rw [hn]
          simp [notify_scan_results_single, hpi]
        · refine ⟨Notification.scanSummary tc.getName tc.target
            (ports_info_of (process_scan_result identify hist rs false now).1), ?_, ⟨rfl, rfl⟩⟩
          rw [hn]
          simp [notify_scan_results_single, hpi]
      · intro h0
        exact absurd h0 hrs
    · rw [run_scan_sched_eq_process identify hist rs tc now hrs,
        process_spec identify hist rs true now hrs]
      dsimp only
      rw [if_pos (rfl : (true : Bool) = true), dictUpdate_nil_of_nodup _ hk]
      constructor
      · intro n hn
        exact emitted_mem identify now (ports_by_ip rs) hist n hn
      · intro hall
        cases he : emitted_notifs identify now hist (ports_by_ip rs) with
        | nil => rfl
        | cons n t =>
          exfalso
          rcases emitted_mem identify now (ports_by_ip rs) hist n
              (by rw [he]; exact List.mem_cons_self _ _) with ⟨ip, c, hc, hp⟩
          have hec := hall (ip, c) hc
          rcases hp with ⟨_, hne2⟩ | ⟨_, hne2⟩
          · exact hne2 hec.1
          · exact hne2 hec.2

/-- C9 witness: a one-shot run over an empty scan result sends the "no open
ports found" summary. -/
theorem claim_C9_witness :
    Notification.noOpenPortsFound "Unknown" "10.0.0.9" ∈
      (run_scan (fun _ _ => []) (ScanHistory.mk []) []
        ⟨none, "10.0.0.9", "80"⟩ false "t0").2.2 :=
  (claim_C9_notification_dispatch_by_mode (fun _ _ => []) (ScanHistory.mk []) []
    ⟨none, "10.0.0.9", "80"⟩ "t0").1.2 rfl

/-- A small helper: the `all_ports` field of a per-address change report is
the grouped port list itself. -/
theorem ip_changes_of_all_ports (identify : String → List Int → List (Int × String))
    (hist : ScanHistory) (ip : String) (ports : List Int) :
    (ip_changes_of identify hist ip ports).all_ports = ports := rfl

/-- C10 (amended): the grouping step appends every record's port to its
address's list, so when the scan-result list contains no duplicate
`(address, port)` records, each per-address port list — which is also what
is passed to the service identifier, `find_new_ports` and `update_ports`,
and emitted as `all_ports` — contains no duplicate port numbers; duplicate
`(address, port)` records, however, are not deduplicated. -/
theorem claim_C10_grouping_distinct_ports (rs : List ScanRecord)
    (hnd : (rs.map (fun r => (r.ip, r.port))).Nodup) :
    (∀ ip ps, (ip, ps) ∈ ports_by_ip rs → ps.Nodup) ∧
    (∀ (identify : String → List Int → List (Int × String)) (hist : ScanHistory)
       (sched : Bool) (now : String) (p : String × IpChanges),
       p ∈ (process_scan_result identify hist rs sched now).1 →
         p.2.all_ports.Nodup) := by
  have hmem : ∀ ip ps, (ip, ps) ∈ ports_by_ip rs → ps.Nodup := by
    intro ip ps hm
    have hget := dictGet?_eq_some_of_mem (ports_by_ip_keys_nodup rs) hm
    rw [ports_by_ip_lookup] at hget
    split at hget
    · cases hget
    · have hps : ps = (rs.filter (fun r => r.ip = ip)).map ScanRecord.port :=
        (Option.some.inj hget).symm
      rw [hps]
      exact filter_ports_nodup rs ip hnd
  refine ⟨hmem, ?_⟩
  intro identify hist sched now p hp
  by_cases hrs : rs = []
  · subst hrs
    unfold process_scan_result at hp
    rw [if_pos rfl] at hp
    cases hp
  · rw [process_spec identify hist rs sched now hrs] at hp
    dsimp only at hp
    have hk : (dictKeys (collect_changes identify now hist (ports_by_ip rs))).Nodup := by
      have h1 := collect_keys identify now (ports_by_ip rs) hist
      rw [h1]
      exact ports_by_ip_keys_nodup rs
    rw [dictUpdate_nil_of_nodup _ hk] at hp
    refine collect_all_ports identify now (ports_by_ip rs) hist ?_ p hp
    intro g hg
    obtain ⟨gip, gps⟩ := g
    exact hmem gip gps hg

/-- C10 witness: on a duplicate-free scan-result list the grouped per-address
port list is duplicate-free. -/
theorem claim_C10_witness :
    (([⟨"10.0.0.5", 22, "tcp", "open"⟩, ⟨"10.0.0.5", 80, "tcp", "open"⟩] :
        List ScanRecord).map (fun r => (r.ip, r.port))).Nodup ∧
    ("10.0.0.5", [22, 80]) ∈
      ports_by_ip [⟨"10.0.0.5", 22, "tcp", "open"⟩, ⟨"10.0.0.5", 80, "tcp", "open"⟩] ∧
    ([22, 80] : List Int).Nodup :=
  ⟨by decide, by decide,
   (claim_C10_grouping_distinct_ports
     [⟨"10.0.0.5", 22, "tcp", "open"⟩, ⟨"10.0.0.5", 80, "tcp", "open"⟩]
     (by decide)).1 "10.0.0.5" [22, 80] (by decide)⟩

/-- C10 counterexample to the claim as stated: a scan-result list that
repeats the same `(address, port)` record — which the parsing loop does not
prevent — is grouped into a per-address port list with a duplicate entry. -/
theorem claim_C10_counterexample :
    ("10.0.0.5", [80, 80]) ∈
      ports_by_ip [⟨"10.0.0.5", 80, "tcp", "open"⟩, ⟨"10.0.0.5", 80, "tcp", "open"⟩] ∧
    ¬ ([80, 80] : List Int).Nodup := by
  decide
